import Mathlib

/-!
Verification development for the `countless` multi-dispatch execution engine.

The embedding follows the repository sources:
  * `countless/core.py` — registries, `TypedMap`, `apply_single`, `apply`;
  * `countless/basic/ops.py`, `countless/basic/targets.py` — concrete
    operation and target kinds;
  * `countless/basic/impls/crop.py`, `countless/basic/impls/noop.py` —
    registered implementations;
  * `countless/batched/ops.py`, `countless/batched/targets.py`,
    `countless/batched/impls/crop.py` — batched kinds and their
    implementations.

The snapshot of `core.py` in the repository does not contain the
definitions of `ANYTHING`, `BatchedOperation`, `BatchedTarget`, the error
classes, or the tiered resolution inside `apply_single`, although
`basic/impls/noop.py` imports `ANYTHING` from `countless.core`, the
`batched` package imports `BatchedOperation` and `BatchedTarget` from
`countless.core`, and the example scripts exercise the wildcard and
structural-batching fallbacks.  Those missing parts are modelled from the
spec; each such definition is marked `Modelled from the spec:` in its doc
comment.  Everything else is translated directly from the source files.

Tensors are modelled as nested lists of integers (the core treats tensor
contents as opaque payload); Python slicing `a[y : y + h]` is
`(a.drop y).take h`, which has the same clamping behaviour for
non-negative bounds.
-/

namespace Countless

/-- Error kinds raised by the engine.  `noImplementationFound`,
`emptyBatch`, `batchSizeMismatch` and `keyNotFound` are the error classes
named by the spec (section 7); `assertionError`, `indexError`,
`runtimeError` and `attributeError` stand for the corresponding Python
exceptions raised by source code (`assert` in `BatchedCrop._batch`,
out-of-range indexing, `torch.stack` on an empty list, and attribute
access on a value of the wrong kind). -/
inductive Error where
  | noImplementationFound (operationName targetName : String)
  | emptyBatch
  | batchSizeMismatch (opSize tgtSize : Nat)
  | keyNotFound (key : String)
  | assertionError
  | indexError
  | runtimeError
  | attributeError
deriving DecidableEq, Repr

/-- Payload of an image-like tensor: channels × rows × columns, from
`countless/basic/targets.py` where images and spatial maps hold a tensor
whose two trailing dimensions are spatial. -/
abbrev Tensor3 := List (List (List Int))

/-- Payload of a single 2-D matrix (e.g. a camera matrix). -/
abbrev Mat2 := List (List Int)

/-- Spatial crop of the two trailing dimensions, from `_crop_spatial` in
`countless/basic/impls/crop.py`: `tensor[..., y : y + h, x : x + w]`. -/
def cropSpatial (t : Tensor3) (xy wh : Nat × Nat) : Tensor3 :=
  t.map fun channel =>
    ((channel.drop xy.2).take wh.2).map fun row => (row.drop xy.1).take wh.1

/-- In-place update `newmat[:2, 2] -= operation.xy` from
`crop_camera_matrix` in `countless/basic/impls/crop.py`, written as a pure
function on the matrix value: row 0, column 2 loses `x`; row 1, column 2
loses `y`; all other entries are unchanged. -/
def cmSub (xy : Nat × Nat) (m : Mat2) : Mat2 :=
  ((List.range m.length).zip m).map fun p =>
    if p.1 = 0 then p.2.set 2 (p.2.getD 2 0 - (xy.1 : Int))
    else if p.1 = 1 then p.2.set 2 (p.2.getD 2 0 - (xy.2 : Int))
    else p.2

/-- Operation kind `Crop` from `countless/basic/ops.py`: an offset `xy`
and a size `wh`. -/
structure Crop where
  xy : Nat × Nat
  wh : Nat × Nat
deriving DecidableEq, Repr

/-- Operation kind `BatchedCrop` from `countless/batched/ops.py`: stacked
per-element offsets and one shared size. -/
structure BatchedCrop where
  xy : List (Nat × Nat)
  wh : Nat × Nat
deriving DecidableEq, Repr

/-- Target kind `Image` from `countless/basic/targets.py`. -/
structure Image where
  image : Tensor3
deriving DecidableEq, Repr

/-- Target kind `BatchedImage` from `countless/batched/targets.py`: the
stacked tensor is modelled with the batch dimension explicit as a list. -/
structure BatchedImage where
  image : List Tensor3
deriving DecidableEq, Repr

/-- Batch construction for crops.  The emptiness check is Modelled from
the spec: `batch(e1..eN)` fails with `EmptyBatch` if `N = 0` (the
`BatchedOperation` base class is absent from the `core.py` snapshot).  The
non-empty case is `BatchedCrop._batch` from `countless/batched/ops.py`:
it stacks the offsets, asserts that every `wh` equals the first one
(`assert torch.all(wh == wh[0])`), and keeps a single shared `wh`. -/
def BatchedCrop.batch : List Crop → Except Error BatchedCrop
  | [] => .error .emptyBatch
  | e :: rest =>
    if rest.all fun c => c.wh == e.wh then
      .ok ⟨(e :: rest).map Crop.xy, e.wh⟩
    else
      .error .assertionError

/-- `BatchedCrop.unbatch` from `countless/batched/ops.py`: one `Crop` per
stored offset, all sharing the batched `wh`. -/
def BatchedCrop.unbatch (b : BatchedCrop) : List Crop :=
  b.xy.map fun p => ⟨p, b.wh⟩

/-- `BatchedCrop.size` from `countless/batched/ops.py`. -/
def BatchedCrop.size (b : BatchedCrop) : Nat :=
  b.xy.length

/-- Batch construction for images.  The emptiness check is Modelled from
the spec (the `BatchedTarget` base class is absent from the `core.py`
snapshot); the non-empty case is `BatchedImage._batch` from
`countless/batched/targets.py`: `torch.stack` of the element tensors. -/
def BatchedImage.batch : List Image → Except Error BatchedImage
  | [] => .error .emptyBatch
  | e :: rest => .ok ⟨(e :: rest).map Image.image⟩

/-- `BatchedImage.unbatch` from `countless/batched/targets.py`. -/
def BatchedImage.unbatch (b : BatchedImage) : List Image :=
  b.image.map Image.mk

/-- `BatchedImage.size` from `countless/batched/targets.py`. -/
def BatchedImage.size (b : BatchedImage) : Nat :=
  b.image.length

/-- Sum of the operation kinds defined in the repository
(`countless/basic/ops.py` and `countless/batched/ops.py`). -/
inductive Op where
  | noop
  | crop (xy wh : Nat × Nat)
  | batchedCrop (xy : List (Nat × Nat)) (wh : Nat × Nat)
deriving DecidableEq, Repr

/-- Registry name of each operation kind, from its `name` classmethod. -/
def Op.name : Op → String
  | .noop => "noop"
  | .crop _ _ => "crop"
  | .batchedCrop _ _ => "batched_crop"

/-- Whether the operation kind derives from the batched base class
(`BatchedCrop` is the only batched operation in the repository). -/
def Op.is_batched : Op → Bool
  | .batchedCrop _ _ => true
  | _ => false

/-- `unbatch` on the operation side; only batched operations provide it
(the dispatch engine consults it only after checking `is_batched`). -/
def Op.unbatch : Op → List Op
  | .batchedCrop xys wh => xys.map fun p => .crop p wh
  | _ => []

/-- `size` on the operation side; only batched operations provide it. -/
def Op.size : Op → Nat
  | .batchedCrop xys _ => xys.length
  | _ => 0

/-- Sum of the target kinds defined in the repository
(`countless/basic/targets.py` and `countless/batched/targets.py`). -/
inductive Tgt where
  | plainData (data : List Int)
  | image (image : Tensor3)
  | spatialMap (data : Tensor3)
  | exactSpatialMap (data : Tensor3)
  | cameraMatrix (matrix : Mat2)
  | matrices3d (matrices : List Mat2)
  | matrices2d (matrices : List Mat2)
  | batchedImage (image : List Tensor3)
deriving DecidableEq, Repr

/-- Registry name of each target kind, from its `name` classmethod. -/
def Tgt.name : Tgt → String
  | .plainData _ => "plain_data"
  | .image _ => "image"
  | .spatialMap _ => "spatial_map"
  | .exactSpatialMap _ => "exact_spatial_map"
  | .cameraMatrix _ => "camera_matrix"
  | .matrices3d _ => "matrices_3d"
  | .matrices2d _ => "matrices_2d"
  | .batchedImage _ => "batched_image"

/-- Whether the target kind derives from the batched base class
(`BatchedImage` is the only batched target in the repository). -/
def Tgt.is_batched : Tgt → Bool
  | .batchedImage _ => true
  | _ => false

/-- `unbatch` on the target side; only batched targets provide it. -/
def Tgt.unbatch : Tgt → List Tgt
  | .batchedImage ts => ts.map Tgt.image
  | _ => []

/-- `size` on the target side; only batched targets provide it. -/
def Tgt.size : Tgt → Nat
  | .batchedImage ts => ts.length
  | _ => 0

/-- Downcast of a dispatch result to an element of a batched image;
rebatching accesses the `image` attribute of each element, so a value of
any other kind raises an attribute error, as in Python. -/
def Tgt.asImage : Tgt → Except Error Image
  | .image t => .ok ⟨t⟩
  | _ => .error .attributeError

/-- Sequencing of fallible element computations, with the semantics of a
Python comprehension: elements are processed left to right and the first
raised error propagates. -/
def mapExcept (f : α → Except Error β) : List α → Except Error (List β)
  | [] => .ok []
  | a :: l =>
    match f a with
    | .error e => .error e
    | .ok b =>
      match mapExcept f l with
      | .error e => .error e
      | .ok bs => .ok (b :: bs)

/-- Recombination step of the structural bridges: the element results are
rebatched with the batched target kind of the original target.  With
`BatchedImage` as the only batched target kind this reads each result's
`image` payload and calls `BatchedImage.batch` (which is where the
`EmptyBatch` check lives). -/
def Tgt.rebatch : Tgt → List Tgt → Except Error Tgt
  | .batchedImage _, results =>
    match mapExcept Tgt.asImage results with
    | .error e => .error e
    | .ok es =>
      match BatchedImage.batch es with
      | .error e => .error e
      | .ok b => .ok (.batchedImage b.image)
  | _, _ => .error .attributeError

/-- Wildcard sentinel.  Modelled from the spec: `ANYTHING` is a
distinguished key in the same namespace as concrete names (it is imported
from `countless.core` by `basic/impls/noop.py` but its definition is
absent from the `core.py` snapshot). -/
def ANYTHING : String := "anything"

/-- `Implementation.name_from` in `countless/core.py`: the registry key of
an implementation is the operation name and target name joined by an
underscore. -/
def name_from (operationName targetName : String) : String :=
  operationName ++ "_" ++ targetName

/-- Type of a registered implementation entry: the `impl` classmethod of
an `Implementation` subclass. -/
abbrev ImplFn := Op → Tgt → Except Error Tgt

/-- Implementation registry: association list from implementation name to
entry, standing for `ImplementationMeta._registry`. -/
abbrev Registry := List (String × ImplFn)

/-- Name-based resolution tiers 1–3 of `apply_single`.  Modelled from the
spec: try the exact entry, then the operation-wildcard entry, then the
target-wildcard entry, returning the first hit. -/
def resolve (reg : Registry) (opName tgtName : String) : Option ImplFn :=
  match reg.lookup (name_from opName tgtName) with
  | some f => some f
  | none =>
    match reg.lookup (name_from opName ANYTHING) with
    | some f => some f
    | none => reg.lookup (name_from ANYTHING tgtName)

/-- Dispatch restricted to an unbatched operation on an unbatched target:
tiers 1–3, then `NoImplementationFound`.  The structural fallbacks of the
full `apply_single` recurse only on unbatched element pairs, on which full
dispatch agrees with this function (lemma `apply_single_unbatched`), so
the recursive calls below are expressed through it. -/
def applyUnbatched (reg : Registry) (op : Op) (tgt : Tgt) : Except Error Tgt :=
  match resolve reg op.name tgt.name with
  | some f => f op tgt
  | none => .error (.noImplementationFound op.name tgt.name)

/-- Single-target dispatch.  Modelled from the spec (the tiered resolution
is absent from the `core.py` snapshot; the example scripts exercise it):
tiers 1–3 by name, then the structural fallbacks — for an unbatched
operation on a batched target, unbatch / apply to each / rebatch; for a
batched operation on a batched target, check the sizes match and apply
pairwise; for a batched operation on an unbatched target, apply only the
first unbatched element; otherwise fail with `NoImplementationFound`. -/
def apply_single (reg : Registry) (op : Op) (tgt : Tgt) : Except Error Tgt :=
  match resolve reg op.name tgt.name with
  | some f => f op tgt
  | none =>
    if op.is_batched then
      if tgt.is_batched then
        if op.size = tgt.size then
          match mapExcept (fun p => applyUnbatched reg p.1 p.2) (op.unbatch.zip tgt.unbatch) with
          | .error e => .error e
          | .ok results => Tgt.rebatch tgt results
        else
          .error (.batchSizeMismatch op.size tgt.size)
      else
        match op.unbatch with
        | [] => .error .indexError
        | o :: _ => applyUnbatched reg o tgt
    else
      if tgt.is_batched then
        match mapExcept (applyUnbatched reg op) tgt.unbatch with
        | .error e => .error e
        | .ok results => Tgt.rebatch tgt results
      else
        .error (.noImplementationFound op.name tgt.name)

/-- `crop_image` from `countless/basic/impls/crop.py`: spatially crop an
image.  A call with arguments of kinds other than the declared ones is an
attribute error, as the Python body would raise on field access. -/
def crop_image_impl : ImplFn
  | .crop xy wh, .image t => .ok (.image (cropSpatial t xy wh))
  | _, _ => .error .attributeError

/-- `crop_spatial_map` from `countless/basic/impls/crop.py`. -/
def crop_spatial_map_impl : ImplFn
  | .crop xy wh, .spatialMap t => .ok (.spatialMap (cropSpatial t xy wh))
  | _, _ => .error .attributeError

/-- `crop_exact_spatial_map` from `countless/basic/impls/crop.py`. -/
def crop_exact_spatial_map_impl : ImplFn
  | .crop xy wh, .exactSpatialMap t => .ok (.exactSpatialMap (cropSpatial t xy wh))
  | _, _ => .error .attributeError

/-- `crop_camera_matrix` from `countless/basic/impls/crop.py`: clone the
matrix, subtract the offset from the principal-point column, return a new
`CameraMatrix` (the clone-then-mutate step is studied store-level in the
purity section; here only its value-level result matters). -/
def crop_camera_matrix_impl : ImplFn
  | .crop xy _, .cameraMatrix m => .ok (.cameraMatrix (cmSub xy m))
  | _, _ => .error .attributeError

/-- `crop_matrices_3d` from `countless/basic/impls/crop.py`: no
transformation needed, the target is returned as is. -/
def crop_matrices_3d_impl : ImplFn
  | .crop _ _, .matrices3d m => .ok (.matrices3d m)
  | _, _ => .error .attributeError

/-- `crop_matrices_2d` from `countless/basic/impls/crop.py`: clone, then
`newmat[..., :2, 2] -= operation.xy` applied per matrix in the batch. -/
def crop_matrices_2d_impl : ImplFn
  | .crop xy _, .matrices2d ms => .ok (.matrices2d (ms.map (cmSub xy)))
  | _, _ => .error .attributeError

/-- `noop_anything` from `countless/basic/impls/noop.py`: return the
target unchanged, for any target kind. -/
def noop_anything_impl : ImplFn :=
  fun _ tgt => .ok tgt

/-- `anything_plain_data` from `countless/basic/impls/noop.py`: return the
target unchanged, for any operation kind. -/
def anything_plain_data_impl : ImplFn :=
  fun _ tgt => .ok tgt

/-- `crop_image` from `countless/batched/impls/crop.py` (registered under
`batched_crop_batched_image`): the helper iterates over the zipped offset
components, crops `tensor[i]` at the i-th offset, and restacks.  With no
offsets the final `torch.stack` raises a runtime error; with more offsets
than batch elements the indexing `tensor[i]` raises an index error. -/
def batched_crop_batched_image_impl : ImplFn
  | .batchedCrop xys wh, .batchedImage ts =>
    if xys.isEmpty then .error .runtimeError
    else if ts.length < xys.length then .error .indexError
    else .ok (.batchedImage ((xys.zip ts).map fun p => cropSpatial p.2 p.1 wh))
  | _, _ => .error .attributeError

/-- Implementation registry populated by importing the repository's
implementation modules (`basic/impls/crop.py`, `basic/impls/noop.py`,
`batched/impls/crop.py`); keys are the `name_from` keys of each
implementation class. -/
def repoRegistry : Registry :=
  [("crop_image", crop_image_impl),
   ("crop_spatial_map", crop_spatial_map_impl),
   ("crop_exact_spatial_map", crop_exact_spatial_map_impl),
   ("crop_camera_matrix", crop_camera_matrix_impl),
   ("crop_matrices_3d", crop_matrices_3d_impl),
   ("crop_matrices_2d", crop_matrices_2d_impl),
   (name_from "noop" ANYTHING, noop_anything_impl),
   (name_from ANYTHING "plain_data", anything_plain_data_impl),
   ("batched_crop_batched_image", batched_crop_batched_image_impl)]

/-- `TypedMap` from `countless/core.py`: a read-only mapping from label to
result that additionally indexes entries by their runtime kind.  The
runtime Python class of a value corresponds one-to-one to the `Tgt`
constructor, identified here by `Tgt.name`. -/
structure TypedMap where
  data : List (String × Tgt)
deriving DecidableEq, Repr

/-- `TypedMap.__getitem__` from `countless/core.py`: `self._data[key]`,
raising a key-not-found error for an absent key. -/
def TypedMap.get (m : TypedMap) (key : String) : Except Error Tgt :=
  match m.data.lookup key with
  | some v => .ok v
  | none => .error (.keyNotFound key)

/-- `TypedMap.by_type` from `countless/core.py`: the sub-mapping of
entries whose runtime kind is the requested one, empty when none match.
The eager `_by_type` index built in `__init__` groups by `type(v)`
preserving insertion order, which is exactly this filter. -/
def TypedMap.by_type (m : TypedMap) (kind : String) : List (String × Tgt) :=
  m.data.filter fun p => p.2.name == kind

/-- Body of the dict comprehension inside `apply` in
`countless/core.py`: run `apply_single` on each labeled target in order,
keep the label on success, propagate the first raised error. -/
def applyPairs (reg : Registry) (op : Op) (targets : List (String × Tgt)) :
    Except Error (List (String × Tgt)) :=
  mapExcept (fun p => match apply_single reg op p.2 with
    | .error e => .error e
    | .ok r => .ok (p.1, r)) targets

/-- `apply` from `countless/core.py`: a dict comprehension running
`apply_single` on each labeled target (the first exception propagates and
no partial map is built), wrapped in a `TypedMap`. -/
def apply (reg : Registry) (op : Op) (targets : List (String × Tgt)) :
    Except Error TypedMap :=
  match applyPairs reg op targets with
  | .error e => .error e
  | .ok pairs => .ok ⟨pairs⟩

/-- Heap of tensor cells used to study mutation.  A tensor variable is an
index into the store; `torch.clone` allocates a fresh cell holding a copy
of the source cell, and in-place arithmetic overwrites a cell. -/
abbrev Store (α : Type) := List α

/-- Allocation of a fresh cell holding a copy of cell `r` — the store
semantics of `tensor.clone()`. -/
def cloneAt (s : Store α) (r : Nat) (d : α) : Store α × Nat :=
  (s ++ [s.getD r d], s.length)

/-- Target kind `CameraMatrix` at the store level: its `matrix` field is a
reference to a tensor cell. -/
structure CameraMatrixRef where
  matrix : Nat
deriving DecidableEq, Repr

/-- Target kind `Matrices2D` at the store level. -/
structure Matrices2DRef where
  matrices : Nat
deriving DecidableEq, Repr

/-- Store-level embedding of `crop_camera_matrix` from
`countless/basic/impls/crop.py`: `newmat = target.matrix.clone()`, then
the in-place `newmat[:2, 2] -= operation.xy` on the fresh cell, and a new
`CameraMatrix` built around the fresh cell is returned. -/
def crop_camera_matrix_st (xy : Nat × Nat) (s : Store Mat2)
    (tgt : CameraMatrixRef) : Store Mat2 × CameraMatrixRef :=
  let c := cloneAt s tgt.matrix []
  (c.1.set c.2 (cmSub xy (c.1.getD c.2 [])), ⟨c.2⟩)

/-- Store-level embedding of `crop_matrices_2d` from
`countless/basic/impls/crop.py`: clone, in-place subtraction on every
matrix of the fresh cell, new `Matrices2D` around the fresh cell. -/
def crop_matrices_2d_st (xy : Nat × Nat) (s : Store (List Mat2))
    (tgt : Matrices2DRef) : Store (List Mat2) × Matrices2DRef :=
  let c := cloneAt s tgt.matrices []
  (c.1.set c.2 ((c.1.getD c.2 []).map (cmSub xy)), ⟨c.2⟩)

/-- Store-level embedding of `noop_anything` from
`countless/basic/impls/noop.py`: the target is returned as is and the
store is untouched. -/
def noop_anything_st (s : Store α) (tgt : β) : Store α × β :=
  (s, tgt)

/-- Effective attribute table of a Python class as seen by `dir()` after
inheritance: each attribute name with its `__isabstractmethod__` flag,
plus the registry name the class would report through `name()` (consulted
only when the class is concrete; abstract classes carry a placeholder). -/
structure PyClass where
  pyName : String
  attrs : List (String × Bool)
deriving DecidableEq, Repr

/-- Concreteness check of `RegistryMeta.__new__` in `countless/core.py`:
a class is concrete when no attribute in `dir(new_cls)` has
`__isabstractmethod__` set. -/
def PyClass.isConcrete (c : PyClass) : Bool :=
  c.attrs.all fun a => !a.2

/-- Assignment `registry[key] = value` on a Python dict: an existing key
keeps its position and gets the new value, a new key is appended. -/
def dictInsert (reg : List (String × PyClass)) (k : String) (v : PyClass) :
    List (String × PyClass) :=
  match reg with
  | [] => [(k, v)]
  | (k0, v0) :: rest =>
    if k0 = k then (k, v) :: rest else (k0, v0) :: dictInsert rest k v

/-- `RegistryMeta.__new__` from `countless/core.py`: at class-definition
time, the new class is entered into the metaclass registry under its
`name()` exactly when it has no remaining abstract method. -/
def registerClass (reg : List (String × PyClass)) (c : PyClass) :
    List (String × PyClass) :=
  if c.isConcrete then dictInsert reg c.pyName c else reg

/-- Registry contents after a sequence of class definitions. -/
def buildRegistry (cs : List PyClass) : List (String × PyClass) :=
  cs.foldl registerClass []

/-- Base class `Operation` from `countless/core.py`: `name` is abstract
(inherited from `Named`), `apply_single` and `apply` are concrete. -/
def operationBase : PyClass :=
  ⟨"", [("name", true), ("apply_single", false), ("apply", false)]⟩

/-- Base class `BatchedOperation`.  Modelled from the spec: the batchable
contract leaves `name`, `_batch`, `unbatch` and `size` abstract (the class
is imported from `countless.core` by `batched/ops.py` but absent from the
`core.py` snapshot). -/
def batchedOperationBase : PyClass :=
  ⟨"", [("name", true), ("apply_single", false), ("apply", false),
        ("_batch", true), ("unbatch", true), ("size", true)]⟩

/-- Concrete operation class `NoOp` from `countless/basic/ops.py`. -/
def noOpClass : PyClass :=
  ⟨"noop", [("name", false), ("apply_single", false), ("apply", false)]⟩

/-- Concrete operation class `Crop` from `countless/basic/ops.py`. -/
def cropClass : PyClass :=
  ⟨"crop", [("name", false), ("apply_single", false), ("apply", false)]⟩

/-- Concrete operation class `BatchedCrop` from `countless/batched/ops.py`:
it overrides every abstract method of its bases. -/
def batchedCropClass : PyClass :=
  ⟨"batched_crop", [("name", false), ("apply_single", false), ("apply", false),
                    ("_batch", false), ("unbatch", false), ("size", false)]⟩

/-- Base class `Target` from `countless/core.py`: only the abstract `name`
inherited from `Named`. -/
def targetBase : PyClass :=
  ⟨"", [("name", true)]⟩

/-- Base class `BatchedTarget`.  Modelled from the spec, like
`batchedOperationBase`. -/
def batchedTargetBase : PyClass :=
  ⟨"", [("name", true), ("_batch", true), ("unbatch", true), ("size", true)]⟩

/-- Concrete target class with just the `name` override, covering the
seven classes of `countless/basic/targets.py`. -/
def basicTargetClass (n : String) : PyClass :=
  ⟨n, [("name", false)]⟩

/-- Concrete target class `BatchedImage` from
`countless/batched/targets.py`. -/
def batchedImageClass : PyClass :=
  ⟨"batched_image", [("name", false), ("_batch", false), ("unbatch", false),
                     ("size", false)]⟩

/-- Base class `Implementation` from `countless/core.py`: `name` is
concrete (derived from `name_from`) but `operation`, `target` and `impl`
are abstract. -/
def implementationBase : PyClass :=
  ⟨"", [("name", false), ("operation", true), ("target", true), ("impl", true)]⟩

/-- Concrete `_Impl` class produced by the `@impl()` decorator of
`countless/decorators.py`: every abstract method is overridden. -/
def implClass (n : String) : PyClass :=
  ⟨n, [("name", false), ("operation", false), ("target", false), ("impl", false)]⟩

/-- Class-definition sequence of the operation hierarchy across the
repository modules. -/
def operationClasses : List PyClass :=
  [operationBase, noOpClass, cropClass, batchedOperationBase, batchedCropClass]

/-- Class-definition sequence of the target hierarchy. -/
def targetClasses : List PyClass :=
  [targetBase,
   basicTargetClass "plain_data", basicTargetClass "image",
   basicTargetClass "spatial_map", basicTargetClass "exact_spatial_map",
   basicTargetClass "camera_matrix", basicTargetClass "matrices_3d",
   basicTargetClass "matrices_2d",
   batchedTargetBase, batchedImageClass]

/-- Class-definition sequence of the implementation hierarchy: the base
class and the nine `_Impl` classes created by the decorated functions. -/
def implementationClasses : List PyClass :=
  [implementationBase,
   implClass "crop_image", implClass "crop_spatial_map",
   implClass "crop_exact_spatial_map", implClass "crop_camera_matrix",
   implClass "crop_matrices_3d", implClass "crop_matrices_2d",
   implClass "noop_anything", implClass "anything_plain_data",
   implClass "batched_crop_batched_image"]

/-- Contents of `OperationMeta._registry` after importing the repository. -/
def operationRegistry : List (String × PyClass) :=
  buildRegistry operationClasses

/-- Contents of `TargetMeta._registry` after importing the repository. -/
def targetRegistry : List (String × PyClass) :=
  buildRegistry targetClasses

/-- Contents of `ImplementationMeta._registry` after importing the
repository. -/
def implementationRegistry : List (String × PyClass) :=
  buildRegistry implementationClasses

theorem apply_single_unbatched (reg : Registry) (op : Op) (tgt : Tgt)
    (hop : op.is_batched = false) (htgt : tgt.is_batched = false) :
    apply_single reg op tgt = applyUnbatched reg op tgt := by
  unfold apply_single applyUnbatched
  cases h : resolve reg op.name tgt.name <;> simp [hop, htgt]

theorem resolve_exact {reg : Registry} {o t : String} {f : ImplFn}
    (h : reg.lookup (name_from o t) = some f) : resolve reg o t = some f := by
  unfold resolve
  rw [h]

theorem resolve_opwild {reg : Registry} {o t : String} {f : ImplFn}
    (h1 : reg.lookup (name_from o t) = none)
    (h2 : reg.lookup (name_from o ANYTHING) = some f) : resolve reg o t = some f := by
  unfold resolve
  rw [h1, h2]

theorem resolve_tgtwild {reg : Registry} {o t : String}
    (h1 : reg.lookup (name_from o t) = none)
    (h2 : reg.lookup (name_from o ANYTHING) = none) :
    resolve reg o t = reg.lookup (name_from ANYTHING t) := by
  unfold resolve
  rw [h1, h2]

theorem apply_single_hit {reg : Registry} {op : Op} {tgt : Tgt} {f : ImplFn}
    (h : resolve reg op.name tgt.name = some f) :
    apply_single reg op tgt = f op tgt := by
  unfold apply_single
  rw [h]

theorem unbatch_elements (tgt : Tgt) : ∀ e ∈ tgt.unbatch, e.is_batched = false := by
  intro e he
  cases tgt <;> simp [Tgt.unbatch] at he
  rcases he with ⟨t, _, rfl⟩
  rfl

theorem mapExcept_congr {f g : α → Except Error β} :
    ∀ {l : List α}, (∀ a ∈ l, f a = g a) → mapExcept f l = mapExcept g l := by
  intro l
  induction l with
  | nil => intro _; rfl
  | cons a l ih =>
    intro h
    simp only [mapExcept, h a (List.mem_cons_self a l),
      ih fun x hx => h x (List.mem_cons_of_mem a hx)]

theorem apply_single_bridge {reg : Registry} {op : Op} {tgt : Tgt}
    (h : resolve reg op.name tgt.name = none)
    (hb : tgt.is_batched = true) (ho : op.is_batched = false) :
    apply_single reg op tgt =
      match mapExcept (fun e => apply_single reg op e) tgt.unbatch with
      | .error e => .error e
      | .ok results => Tgt.rebatch tgt results := by
  have hmap : mapExcept (fun e => apply_single reg op e) tgt.unbatch =
      mapExcept (applyUnbatched reg op) tgt.unbatch :=
    mapExcept_congr fun e he => apply_single_unbatched reg op e ho (unbatch_elements tgt e he)
  rw [hmap]
  unfold apply_single
  rw [h]
  simp [ho, hb]

/-- C1: single-target dispatch resolves by trying, in this fixed order,
the exact entry, the operation-wildcard entry, the target-wildcard entry,
then the structural batched-target bridge; in particular, when only an
operation-wildcard (or only a target-wildcard) implementation is
registered for the pair, `apply_single` invokes that wildcard
implementation. -/
theorem dispatch_tier_order (reg : Registry) (op : Op) (tgt : Tgt) :
    (∀ f, reg.lookup (name_from op.name tgt.name) = some f →
      apply_single reg op tgt = f op tgt)
    ∧ (reg.lookup (name_from op.name tgt.name) = none →
       ∀ f, reg.lookup (name_from op.name ANYTHING) = some f →
         apply_single reg op tgt = f op tgt)
    ∧ (reg.lookup (name_from op.name tgt.name) = none →
       reg.lookup (name_from op.name ANYTHING) = none →
       ∀ f, reg.lookup (name_from ANYTHING tgt.name) = some f →
         apply_single reg op tgt = f op tgt)
    ∧ (reg.lookup (name_from op.name tgt.name) = none →
       reg.lookup (name_from op.name ANYTHING) = none →
       reg.lookup (name_from ANYTHING tgt.name) = none →
       tgt.is_batched = true → op.is_batched = false →
       apply_single reg op tgt =
         match mapExcept (fun e => apply_single reg op e) tgt.unbatch with
         | .error e => .error e
         | .ok results => Tgt.rebatch tgt results) := by
  refine ⟨?_, ?_, ?_, ?_⟩
  · intro f h
    exact apply_single_hit (resolve_exact h)
  · intro h1 f h2
    exact apply_single_hit (resolve_opwild h1 h2)
  · intro h1 h2 f h3
    exact apply_single_hit ((resolve_tgtwild h1 h2).trans h3)
  · intro h1 h2 h3 hb ho
    exact apply_single_bridge ((resolve_tgtwild h1 h2).trans h3) hb ho

theorem dispatch_tier_order_witness :
    apply_single [(name_from "crop" ANYTHING, noop_anything_impl)]
      (Op.crop (0, 0) (1, 1)) (Tgt.image [[[1]]]) = .ok (.image [[[1]]])
    ∧ apply_single [(name_from ANYTHING "image", noop_anything_impl)]
      (Op.crop (0, 0) (1, 1)) (Tgt.image [[[1]]]) = .ok (.image [[[1]]]) := by
  constructor
  · have h := (dispatch_tier_order [(name_from "crop" ANYTHING, noop_anything_impl)]
      (Op.crop (0, 0) (1, 1)) (Tgt.image [[[1]]])).2.1 rfl noop_anything_impl rfl
    exact h.trans rfl
  · have h := (dispatch_tier_order [(name_from ANYTHING "image", noop_anything_impl)]
      (Op.crop (0, 0) (1, 1)) (Tgt.image [[[1]]])).2.2.1 rfl rfl noop_anything_impl rfl
    exact h.trans rfl

theorem mapExcept_asImage (rs : List Tensor3) :
    mapExcept Tgt.asImage (rs.map Tgt.image) = .ok (rs.map Image.mk) := by
  induction rs with
  | nil => rfl
  | cons r rest ih => simp [mapExcept, Tgt.asImage, ih]

theorem rebatch_images (es : List Tensor3) (rs : List Tensor3) (hne : rs ≠ []) :
    Tgt.rebatch (.batchedImage es) (rs.map Tgt.image) = .ok (.batchedImage rs) := by
  cases rs with
  | nil => exact absurd rfl hne
  | cons r rest =>
    have hid : ∀ l : List Tensor3, l.map (Image.image ∘ Image.mk) = l := by
      intro l
      induction l with
      | nil => rfl
      | cons x xs ih => simp [Function.comp, ih]
    simp only [Tgt.rebatch]
    rw [mapExcept_asImage]
    simp [BatchedImage.batch, Function.comp, hid rest]

theorem bridge_elements (reg : Registry) (op : Op) :
    ∀ {es rs : List Tensor3},
      List.Forall₂ (fun e r => apply_single reg op (Tgt.image e) = .ok (.image r)) es rs →
      mapExcept (fun e => apply_single reg op e) (es.map Tgt.image) = .ok (rs.map Tgt.image) := by
  intro es rs h
  induction h with
  | nil => rfl
  | cons h _ ih => simp [mapExcept, h, ih]

/-- C2: for every unbatched operation and batched image of N ≥ 1 elements
with no exact or wildcard implementation registered for the pair,
`apply_single` unbatches the target, applies the operation to each
element independently, and rebatches the results; no implementation
registered for the batched target kind is needed. -/
theorem structural_bridge (reg : Registry) (op : Op) (es rs : List Tensor3)
    (hex : reg.lookup (name_from op.name "batched_image") = none)
    (how : reg.lookup (name_from op.name ANYTHING) = none)
    (htw : reg.lookup (name_from ANYTHING "batched_image") = none)
    (hop : op.is_batched = false)
    (hne : es ≠ [])
    (happ : List.Forall₂
      (fun e r => apply_single reg op (Tgt.image e) = .ok (.image r)) es rs) :
    apply_single reg op (.batchedImage es) = .ok (.batchedImage rs) := by
  have hres : resolve reg op.name (Tgt.batchedImage es).name = none := by
    show resolve reg op.name "batched_image" = none
    exact (resolve_tgtwild hex how).trans htw
  rw [apply_single_bridge hres rfl hop]
  have h1 : mapExcept (fun e => apply_single reg op e)
      (Tgt.batchedImage es).unbatch = .ok (rs.map Tgt.image) :=
    bridge_elements reg op happ
  rw [h1]
  have hrs : rs ≠ [] := by
    intro hnil
    subst hnil
    exact hne (List.length_eq_zero.mp happ.length_eq)
  exact rebatch_images es rs hrs

theorem structural_bridge_witness :
    apply_single repoRegistry (Op.crop (0, 0) (1, 1))
      (Tgt.batchedImage [[[[1, 2], [3, 4]]]]) = .ok (.batchedImage [[[[1]]]]) := by
  exact structural_bridge repoRegistry (Op.crop (0, 0) (1, 1))
    [[[[1, 2], [3, 4]]]] [[[[1]]]] rfl rfl rfl rfl (by simp)
    (List.Forall₂.cons rfl List.Forall₂.nil)

/-- C3 counterexample: the pair (`batched_crop`, `image`) has no exact
implementation, no operation-wildcard and no target-wildcard entry in the
repository registry, and the target is not batched — yet `apply_single`
succeeds through the batched-operation first-element fallback instead of
failing with `NoImplementationFound` (this is exactly the
`multi_op_single_tgt` example of `examples/crop.py`, which asserts the
success). -/
theorem no_match_failure_cex :
    repoRegistry.lookup
      (name_from (Op.batchedCrop [(0, 0)] (1, 1)).name (Tgt.image [[[1, 2], [3, 4]]]).name) = none
    ∧ repoRegistry.lookup
      (name_from (Op.batchedCrop [(0, 0)] (1, 1)).name ANYTHING) = none
    ∧ repoRegistry.lookup
      (name_from ANYTHING (Tgt.image [[[1, 2], [3, 4]]]).name) = none
    ∧ (Tgt.image [[[1, 2], [3, 4]]]).is_batched = false
    ∧ apply_single repoRegistry (Op.batchedCrop [(0, 0)] (1, 1))
        (Tgt.image [[[1, 2], [3, 4]]]) = .ok (.image [[[1]]]) :=
  ⟨rfl, rfl, rfl, rfl, rfl⟩

/-- C3 (amended): for every pair with no exact implementation, no wildcard
implementation, a non-batched target AND a non-batched operation (so that
neither structural fallback applies), `apply_single` fails with
`NoImplementationFound` naming both the operation identifier and the
target identifier; the error is returned to the caller, never silently
swallowed. -/
theorem no_match_failure_amended (reg : Registry) (op : Op) (tgt : Tgt)
    (hex : reg.lookup (name_from op.name tgt.name) = none)
    (how : reg.lookup (name_from op.name ANYTHING) = none)
    (htw : reg.lookup (name_from ANYTHING tgt.name) = none)
    (hop : op.is_batched = false)
    (htgt : tgt.is_batched = false) :
    apply_single reg op tgt = .error (.noImplementationFound op.name tgt.name) := by
  have hres : resolve reg op.name tgt.name = none := (resolve_tgtwild hex how).trans htw
  unfold apply_single
  rw [hres]
  simp [hop, htgt]

theorem no_match_failure_amended_witness :
    apply_single [] Op.noop (Tgt.image [[[1]]]) =
      .error (.noImplementationFound "noop" "image") :=
  no_match_failure_amended [] Op.noop (Tgt.image [[[1]]]) rfl rfl rfl rfl rfl

theorem applyPairs_ok (reg : Registry) (op : Op) :
    ∀ (targets pairs : List (String × Tgt)),
      applyPairs reg op targets = .ok pairs →
      pairs.map Prod.fst = targets.map Prod.fst ∧
      List.Forall₂ (fun p q => p.1 = q.1 ∧ apply_single reg op p.2 = .ok q.2)
        targets pairs := by
  intro targets
  induction targets with
  | nil =>
    intro pairs h
    simp only [applyPairs, mapExcept] at h
    cases h
    exact ⟨rfl, List.Forall₂.nil⟩
  | cons p rest ih =>
    intro pairs h
    simp only [applyPairs, mapExcept] at h
    cases h1 : apply_single reg op p.2 with
    | error e => rw [h1] at h; exact absurd h (by simp)
    | ok r =>
      rw [h1] at h
      cases h2 : applyPairs reg op rest with
      | error e =>
        simp only [applyPairs] at h2
        rw [h2] at h
        exact absurd h (by simp)
      | ok bs =>
        simp only [applyPairs] at h2
        rw [h2] at h
        cases h
        rcases ih bs h2 with ⟨hk, hall⟩
        exact ⟨by simp [hk], List.Forall₂.cons ⟨rfl, h1⟩ hall⟩

theorem applyPairs_error (reg : Registry) (op : Op) :
    ∀ (pre : List (String × Tgt)) (k : String) (t : Tgt)
      (post : List (String × Tgt)) (e : Error),
      (∀ q ∈ pre, ∃ r, apply_single reg op q.2 = .ok r) →
      apply_single reg op t = .error e →
      applyPairs reg op (pre ++ (k, t) :: post) = .error e := by
  intro pre
  induction pre with
  | nil =>
    intro k t post e _ ht
    simp only [applyPairs, mapExcept, List.nil_append]
    rw [ht]
  | cons q pre ih =>
    intro k t post e hok ht
    rcases hok q (List.mem_cons_self q pre) with ⟨r, hr⟩
    have hrest := ih k t post e (fun x hx => hok x (List.mem_cons_of_mem q hx)) ht
    simp only [applyPairs, mapExcept, List.cons_append, List.append_eq]
    rw [hr]
    simp only [applyPairs, List.append_eq] at hrest
    rw [hrest]

/-- C4: `apply` runs `apply_single` on each labeled target independently
and returns a result map whose labels equal the input labels in order,
each value being the `apply_single` result for that label; if any single
target fails, the whole call fails with the first failure and no partial
map is returned. -/
theorem apply_multi_target (reg : Registry) (op : Op)
    (targets : List (String × Tgt)) :
    (∀ m : TypedMap, apply reg op targets = .ok m →
      m.data.map Prod.fst = targets.map Prod.fst ∧
      List.Forall₂ (fun p q => p.1 = q.1 ∧ apply_single reg op p.2 = .ok q.2)
        targets m.data)
    ∧ (∀ (pre : List (String × Tgt)) (k : String) (t : Tgt)
        (post : List (String × Tgt)) (e : Error),
        targets = pre ++ (k, t) :: post →
        (∀ q ∈ pre, ∃ r, apply_single reg op q.2 = .ok r) →
        apply_single reg op t = .error e →
        apply reg op targets = .error e) := by
  constructor
  · intro m hm
    unfold apply at hm
    cases h : applyPairs reg op targets with
    | error e => rw [h] at hm; exact absurd hm (by simp)
    | ok pairs =>
      rw [h] at hm
      cases hm
      exact applyPairs_ok reg op targets pairs h
  · intro pre k t post e heq hok ht
    subst heq
    unfold apply
    rw [applyPairs_error reg op pre k t post e hok ht]

theorem apply_multi_target_witness :
    (TypedMap.mk [("a", Tgt.plainData [1]), ("b", Tgt.image [[[2]]])]).data.map
      Prod.fst = ["a", "b"]
    ∧ apply [] Op.noop [("a", Tgt.image [[[1]]])] =
        .error (.noImplementationFound "noop" "image") := by
  constructor
  · exact ((apply_multi_target repoRegistry Op.noop
      [("a", Tgt.plainData [1]), ("b", Tgt.image [[[2]]])]).1
      ⟨[("a", Tgt.plainData [1]), ("b", Tgt.image [[[2]]])]⟩ rfl).1
  · exact (apply_multi_target [] Op.noop [("a", Tgt.image [[[1]]])]).2
      [] "a" (Tgt.image [[[1]]]) [] (.noImplementationFound "noop" "image")
      rfl (by simp) rfl

theorem map_rebuild_crop (w : Nat × Nat) :
    ∀ (l : List Crop), (∀ c ∈ l, c.wh = w) →
      l.map (fun c => Crop.mk c.xy w) = l := by
  intro l
  induction l with
  | nil => intro _; rfl
  | cons c rest ih =>
    intro h
    have hc : Crop.mk c.xy w = c := by
      have hw := h c (List.mem_cons_self c rest)
      cases c
      simp_all
    simp only [List.map_cons, hc, ih fun x hx => h x (List.mem_cons_of_mem c hx)]

/-- C5 counterexample: batching the non-empty sequence of two crops with
different sizes fails on the assertion inside `BatchedCrop._batch`
(`assert torch.all(wh == wh[0])`), so the round-trip law as stated does
not hold for every non-empty element sequence. -/
theorem batch_round_trip_cex :
    BatchedCrop.batch [⟨(0, 0), (1, 1)⟩, ⟨(2, 2), (3, 3)⟩] =
      .error .assertionError := rfl

/-- C5 (amended): for every non-empty sequence of crops sharing one size
`wh`, and every non-empty sequence of images, `unbatch(batch(E))` is
element-wise equal to `E` in order, and `size(batch(E))` equals the
length of `E`; crops with differing sizes are rejected by the assertion
in `BatchedCrop._batch`. -/
theorem batch_round_trip_amended :
    (∀ (e : Crop) (es : List Crop), (∀ c ∈ es, c.wh = e.wh) →
      ∃ b, BatchedCrop.batch (e :: es) = .ok b
        ∧ b.unbatch = e :: es ∧ b.size = (e :: es).length)
    ∧ (∀ (i : Image) (imgs : List Image),
      ∃ b, BatchedImage.batch (i :: imgs) = .ok b
        ∧ b.unbatch = i :: imgs ∧ b.size = (i :: imgs).length) := by
  constructor
  · intro e es h
    refine ⟨⟨(e :: es).map Crop.xy, e.wh⟩, ?_, ?_, ?_⟩
    · simp only [BatchedCrop.batch]
      have hall : (es.all fun c => c.wh == e.wh) = true := by
        rw [List.all_eq_true]
        intro c hc
        exact beq_iff_eq.mpr (h c hc)
      rw [hall]
      simp
    · show ((e :: es).map Crop.xy).map (fun p => Crop.mk p e.wh) = e :: es
      rw [List.map_map]
      exact map_rebuild_crop e.wh (e :: es) fun c hc => by
        rcases List.mem_cons.mp hc with rfl | hc
        · rfl
        · exact h c hc
    · simp [BatchedCrop.size]
  · intro i imgs
    refine ⟨⟨(i :: imgs).map Image.image⟩, rfl, ?_, ?_⟩
    · show ((i :: imgs).map Image.image).map Image.mk = i :: imgs
      rw [List.map_map]
      have : ∀ l : List Image, l.map (Image.mk ∘ Image.image) = l := by
        intro l
        induction l with
        | nil => rfl
        | cons x xs ih => simp [Function.comp, ih]
      exact this (i :: imgs)
    · simp [BatchedImage.size]

theorem batch_round_trip_witness :
    (BatchedCrop.batch [⟨(1, 2), (3, 4)⟩, ⟨(5, 6), (3, 4)⟩]).isOk = true
    ∧ (BatchedImage.batch [⟨[[[1]]]⟩, ⟨[[[2]]]⟩]).isOk = true := by
  constructor
  · rcases batch_round_trip_amended.1 ⟨(1, 2), (3, 4)⟩ [⟨(5, 6), (3, 4)⟩]
      (by decide) with ⟨b, hb, _, _⟩
    rw [hb]
    rfl
  · rcases batch_round_trip_amended.2 ⟨[[[1]]]⟩ [⟨[[[2]]]⟩] with ⟨b, hb, _, _⟩
    rw [hb]
    rfl

theorem getD_map_zip (f : α → β → γ) :
    ∀ (xs : List α) (ys : List β) (i : Nat), i < xs.length → i < ys.length →
      ∀ (dx : α) (dy : β) (dg : γ),
      ((xs.zip ys).map fun p => f p.1 p.2).getD i dg =
        f (xs.getD i dx) (ys.getD i dy) := by
  intro xs
  induction xs with
  | nil =>
    intro ys i h1
    simp at h1
  | cons x xs ih =>
    intro ys i h1 h2 dx dy dg
    cases ys with
    | nil => simp at h2
    | cons y ys =>
      cases i with
      | zero => rfl
      | succ n =>
        simp only [List.zip_cons_cons, List.map_cons, List.getD_cons_succ]
        exact ih ys n (Nat.lt_of_succ_lt_succ h1) (Nat.lt_of_succ_lt_succ h2) dx dy dg

/-- C6: a batched crop with per-element offsets and fixed size applied to
a batched image of the same element count N produces, at every position
i, the input element i cropped at element i's own offset — per-position
pairing through the registered `batched_crop_batched_image`
implementation, not a broadcast of one offset. -/
theorem batched_crop_pairing (xys : List (Nat × Nat)) (wh : Nat × Nat)
    (ts : List Tensor3) (hlen : xys.length = ts.length)
    (i : Nat) (hi : i < ts.length) :
    ∃ out, apply_single repoRegistry (.batchedCrop xys wh) (.batchedImage ts) =
        .ok (.batchedImage out)
      ∧ out.length = ts.length
      ∧ out.getD i [] = cropSpatial (ts.getD i []) (xys.getD i (0, 0)) wh := by
  have hres : resolve repoRegistry (Op.batchedCrop xys wh).name
      (Tgt.batchedImage ts).name = some batched_crop_batched_image_impl := rfl
  have h1 := apply_single_hit hres
  have hempty : xys.isEmpty = false := by
    cases xys with
    | nil =>
      simp only [List.length_nil] at hlen
      omega
    | cons a l => rfl
  have hnl : ¬ ts.length < xys.length := by omega
  refine ⟨(xys.zip ts).map fun p => cropSpatial p.2 p.1 wh, ?_, ?_, ?_⟩
  · rw [h1]
    simp only [batched_crop_batched_image_impl]
    rw [if_neg (by simp [hempty]), if_neg hnl]
  · simp [hlen]
  · exact getD_map_zip (fun a b => cropSpatial b a wh) xys ts i
      (by omega) hi (0, 0) [] []

theorem batched_crop_pairing_witness :
    ∃ out, apply_single repoRegistry
        (.batchedCrop [(0, 0), (1, 0)] (1, 1))
        (.batchedImage [[[[1, 2], [3, 4]]], [[[5, 6], [7, 8]]]]) =
        .ok (.batchedImage out)
      ∧ out.length = 2
      ∧ out.getD 1 [] = cropSpatial [[[5, 6], [7, 8]]] (1, 0) (1, 1) :=
  batched_crop_pairing [(0, 0), (1, 0)] (1, 1)
    [[[[1, 2], [3, 4]]], [[[5, 6], [7, 8]]]] (by decide) 1 (by decide)

/-- C7: batching zero elements fails with `EmptyBatch`, both for the
batched operation kind and for the batched target kind; no silent empty
batch is produced. -/
theorem empty_batch_rejected :
    BatchedCrop.batch [] = .error .emptyBatch
    ∧ BatchedImage.batch [] = .error .emptyBatch :=
  ⟨rfl, rfl⟩

/-- C8: in a typed result map, `get` returns the stored result for a
present key and fails with a key-not-found error for an absent key;
`by_type` returns exactly the sub-mapping of entries whose runtime kind
is the requested one (same labels, same values) and is empty — not an
error — when no entry has that kind. -/
theorem typed_map_contract (m : TypedMap) :
    (∀ key v, m.data.lookup key = some v → m.get key = .ok v)
    ∧ (∀ key, m.data.lookup key = none →
        m.get key = .error (.keyNotFound key))
    ∧ (∀ kind k v, (k, v) ∈ m.by_type kind ↔
        ((k, v) ∈ m.data ∧ v.name = kind))
    ∧ (∀ kind, (∀ p ∈ m.data, p.2.name ≠ kind) → m.by_type kind = []) := by
  refine ⟨?_, ?_, ?_, ?_⟩
  · intro key v h
    unfold TypedMap.get
    rw [h]
  · intro key h
    unfold TypedMap.get
    rw [h]
  · intro kind k v
    unfold TypedMap.by_type
    rw [List.mem_filter]
    simp
  · intro kind h
    unfold TypedMap.by_type
    rw [List.filter_eq_nil_iff]
    intro p hp
    simp only [beq_eq_false_iff_ne, ne_eq, Bool.not_eq_true]
    simp [h p hp]

theorem typed_map_contract_witness :
    (TypedMap.mk [("a", Tgt.image [[[1]]]), ("b", Tgt.plainData [2])]).get "a" =
      .ok (.image [[[1]]])
    ∧ (TypedMap.mk [("a", Tgt.image [[[1]]]), ("b", Tgt.plainData [2])]).get "zz" =
      .error (.keyNotFound "zz")
    ∧ ("a", Tgt.image [[[1]]]) ∈
      (TypedMap.mk [("a", Tgt.image [[[1]]]), ("b", Tgt.plainData [2])]).by_type "image"
    ∧ (TypedMap.mk [("a", Tgt.image [[[1]]]), ("b", Tgt.plainData [2])]).by_type
        "camera_matrix" = [] := by
  refine ⟨?_, ?_, ?_, ?_⟩
  · exact (typed_map_contract _).1 "a" _ rfl
  · exact (typed_map_contract _).2.1 "zz" rfl
  · exact ((typed_map_contract _).2.2.1 "image" "a" (Tgt.image [[[1]]])).mpr
      ⟨by simp, rfl⟩
  · exact (typed_map_contract _).2.2.2 "camera_matrix" (by decide)

theorem set_append_length (l : List α) (v w : α) :
    (l ++ [v]).set l.length w = l ++ [w] := by
  induction l with
  | nil => rfl
  | cons x xs ih => simp [List.set, ih]

theorem kinds_crop_image :
    ∀ op tgt r, crop_image_impl op tgt = .ok r → r.name = tgt.name := by
  intro op tgt r h
  cases op <;> cases tgt <;> simp only [crop_image_impl] at h <;>
    first
      | exact Except.noConfusion h
      | (injection h with h2; subst h2; rfl)

theorem kinds_crop_spatial_map :
    ∀ op tgt r, crop_spatial_map_impl op tgt = .ok r → r.name = tgt.name := by
  intro op tgt r h
  cases op <;> cases tgt <;> simp only [crop_spatial_map_impl] at h <;>
    first
      | exact Except.noConfusion h
      | (injection h with h2; subst h2; rfl)

theorem kinds_crop_exact_spatial_map :
    ∀ op tgt r, crop_exact_spatial_map_impl op tgt = .ok r → r.name = tgt.name := by
  intro op tgt r h
  cases op <;> cases tgt <;> simp only [crop_exact_spatial_map_impl] at h <;>
    first
      | exact Except.noConfusion h
      | (injection h with h2; subst h2; rfl)

theorem kinds_crop_camera_matrix :
    ∀ op tgt r, crop_camera_matrix_impl op tgt = .ok r → r.name = tgt.name := by
  intro op tgt r h
  cases op <;> cases tgt <;> simp only [crop_camera_matrix_impl] at h <;>
    first
      | exact Except.noConfusion h
      | (injection h with h2; subst h2; rfl)

theorem kinds_crop_matrices_3d :
    ∀ op tgt r, crop_matrices_3d_impl op tgt = .ok r → r.name = tgt.name := by
  intro op tgt r h
  cases op <;> cases tgt <;> simp only [crop_matrices_3d_impl] at h <;>
    first
      | exact Except.noConfusion h
      | (injection h with h2; subst h2; rfl)

theorem kinds_crop_matrices_2d :
    ∀ op tgt r, crop_matrices_2d_impl op tgt = .ok r → r.name = tgt.name := by
  intro op tgt r h
  cases op <;> cases tgt <;> simp only [crop_matrices_2d_impl] at h <;>
    first
      | exact Except.noConfusion h
      | (injection h with h2; subst h2; rfl)

theorem kinds_return_target (f : ImplFn) (hf : ∀ op tgt, f op tgt = .ok tgt) :
    ∀ op tgt r, f op tgt = .ok r → r.name = tgt.name := by
  intro op tgt r h
  rw [hf op tgt] at h
  cases h
  rfl

theorem kinds_batched_crop_image :
    ∀ op tgt r, batched_crop_batched_image_impl op tgt = .ok r → r.name = tgt.name := by
  intro op tgt r h
  cases op <;> cases tgt <;> simp only [batched_crop_batched_image_impl] at h <;>
    try exact Except.noConfusion h
  split at h
  · exact Except.noConfusion h
  · split at h
    · exact Except.noConfusion h
    · injection h with h2
      subst h2
      rfl

/-- C9: the registered implementations are pure with respect to their
inputs.  At the store level, `crop_camera_matrix` and `crop_matrices_2d`
— the two implementations whose output comes from in-place arithmetic —
first clone the input tensor, so every pre-existing store cell (in
particular the input target's tensor) is unchanged after the call, and
`noop_anything` touches neither the store nor the target; at the value
level, every entry of the repository registry returns, whenever it
succeeds, a target of the same concrete kind as its input target. -/
theorem impl_purity :
    (∀ (xy : Nat × Nat) (s : Store Mat2) (tgt : CameraMatrixRef),
      (crop_camera_matrix_st xy s tgt).1.take s.length = s)
    ∧ (∀ (xy : Nat × Nat) (s : Store (List Mat2)) (tgt : Matrices2DRef),
      (crop_matrices_2d_st xy s tgt).1.take s.length = s)
    ∧ (∀ (s : Store Mat2) (tgt : Tgt), noop_anything_st s tgt = (s, tgt))
    ∧ (∀ key f, (key, f) ∈ repoRegistry →
        ∀ op tgt r, f op tgt = .ok r → r.name = tgt.name) := by
  refine ⟨?_, ?_, ?_, ?_⟩
  · intro xy s tgt
    unfold crop_camera_matrix_st cloneAt
    simp only
    rw [set_append_length]
    exact List.take_left s _
  · intro xy s tgt
    unfold crop_matrices_2d_st cloneAt
    simp only
    rw [set_append_length]
    exact List.take_left s _
  · intro s tgt
    rfl
  · intro key f hmem
    simp only [repoRegistry, List.mem_cons, List.not_mem_nil, or_false] at hmem
    rcases hmem with h9 | h9 | h9 | h9 | h9 | h9 | h9 | h9 | h9 <;>
      (rw [Prod.ext_iff] at h9; obtain ⟨hk, hf⟩ := h9; subst hf)
    · exact kinds_crop_image
    · exact kinds_crop_spatial_map
    · exact kinds_crop_exact_spatial_map
    · exact kinds_crop_camera_matrix
    · exact kinds_crop_matrices_3d
    · exact kinds_crop_matrices_2d
    · exact kinds_return_target noop_anything_impl fun _ _ => rfl
    · exact kinds_return_target anything_plain_data_impl fun _ _ => rfl
    · exact kinds_batched_crop_image

theorem impl_purity_witness :
    (crop_camera_matrix_st (1, 2) [[[5, 0, 7], [0, 5, 9], [0, 0, 1]]] ⟨0⟩).1.take 1 =
      [[[5, 0, 7], [0, 5, 9], [0, 0, 1]]]
    ∧ (Tgt.image [[[2]]]).name = (Tgt.image [[[2], [3]]]).name := by
  constructor
  · exact impl_purity.1 (1, 2) [[[5, 0, 7], [0, 5, 9], [0, 0, 1]]] ⟨0⟩
  · exact impl_purity.2.2.2 "crop_image" crop_image_impl
      (List.mem_cons_self _ _) (.crop (0, 0) (1, 1)) (.image [[[2], [3]]])
      (.image [[[2]]]) rfl

theorem dictInsert_mem :
    ∀ (reg : List (String × PyClass)) (key : String) (c : PyClass)
      (p : String × PyClass), p ∈ dictInsert reg key c → p ∈ reg ∨ p = (key, c) := by
  intro reg
  induction reg with
  | nil =>
    intro key c p h
    simp only [dictInsert] at h
    right
    simpa using h
  | cons q rest ih =>
    intro key c p h
    obtain ⟨k0, v0⟩ := q
    simp only [dictInsert] at h
    by_cases hk : k0 = key
    · rw [if_pos hk] at h
      rcases List.mem_cons.mp h with rfl | h2
      · right; rfl
      · left; exact List.mem_cons_of_mem _ h2
    · rw [if_neg hk] at h
      rcases List.mem_cons.mp h with rfl | h2
      · left; exact List.mem_cons_self _ _
      · rcases ih key c p h2 with h3 | h3
        · left; exact List.mem_cons_of_mem _ h3
        · right; exact h3

theorem registerClass_mem (reg : List (String × PyClass)) (c : PyClass)
    (p : String × PyClass) (h : p ∈ registerClass reg c) :
    p ∈ reg ∨ (p.2 = c ∧ c.isConcrete = true) := by
  unfold registerClass at h
  by_cases hc : c.isConcrete = true
  · rw [if_pos hc] at h
    rcases dictInsert_mem reg c.pyName c p h with h2 | h2
    · left; exact h2
    · right
      subst h2
      exact ⟨rfl, hc⟩
  · rw [if_neg hc] at h
    left
    exact h

/-- C10: a class is entered into its registry at class-definition time
only if it has no remaining abstract methods; the abstract base classes
(`Operation`, `Target`, `Implementation`, and the batched bases, all of
which leave `name`, `operation`, `target`, `impl` or the batchable
methods abstract) never appear in any of the three registries; the
operation, target and implementation registries are three separate
dictionaries with disjoint key sets; hence every successful lookup yields
a fully concrete class of the requested namespace. -/
theorem registry_concreteness :
    (∀ (reg : List (String × PyClass)) (c : PyClass) (p : String × PyClass),
      p ∈ registerClass reg c → p ∈ reg ∨ (p.2 = c ∧ c.isConcrete = true))
    ∧ (∀ p ∈ operationRegistry, p.2.isConcrete = true)
    ∧ (∀ p ∈ targetRegistry, p.2.isConcrete = true)
    ∧ (∀ p ∈ implementationRegistry, p.2.isConcrete = true)
    ∧ (operationBase.isConcrete = false ∧ batchedOperationBase.isConcrete = false
       ∧ targetBase.isConcrete = false ∧ batchedTargetBase.isConcrete = false
       ∧ implementationBase.isConcrete = false)
    ∧ (operationRegistry = [("noop", noOpClass), ("crop", cropClass),
        ("batched_crop", batchedCropClass)])
    ∧ (targetRegistry = [("plain_data", basicTargetClass "plain_data"),
        ("image", basicTargetClass "image"),
        ("spatial_map", basicTargetClass "spatial_map"),
        ("exact_spatial_map", basicTargetClass "exact_spatial_map"),
        ("camera_matrix", basicTargetClass "camera_matrix"),
        ("matrices_3d", basicTargetClass "matrices_3d"),
        ("matrices_2d", basicTargetClass "matrices_2d"),
        ("batched_image", batchedImageClass)])
    ∧ (implementationRegistry = [("crop_image", implClass "crop_image"),
        ("crop_spatial_map", implClass "crop_spatial_map"),
        ("crop_exact_spatial_map", implClass "crop_exact_spatial_map"),
        ("crop_camera_matrix", implClass "crop_camera_matrix"),
        ("crop_matrices_3d", implClass "crop_matrices_3d"),
        ("crop_matrices_2d", implClass "crop_matrices_2d"),
        ("noop_anything", implClass "noop_anything"),
        ("anything_plain_data", implClass "anything_plain_data"),
        ("batched_crop_batched_image", implClass "batched_crop_batched_image")])
    ∧ ((operationRegistry.map Prod.fst).inter (targetRegistry.map Prod.fst) = []
       ∧ (operationRegistry.map Prod.fst).inter
           (implementationRegistry.map Prod.fst) = []
       ∧ (targetRegistry.map Prod.fst).inter
           (implementationRegistry.map Prod.fst) = []) := by
  refine ⟨registerClass_mem, ?_, ?_, ?_, ?_, ?_, ?_, ?_, ?_⟩
  · intro p hp
    exact List.all_eq_true.mp (by decide :
      operationRegistry.all (fun q => q.2.isConcrete) = true) p hp
  · intro p hp
    exact List.all_eq_true.mp (by decide :
      targetRegistry.all (fun q => q.2.isConcrete) = true) p hp
  · intro p hp
    exact List.all_eq_true.mp (by decide :
      implementationRegistry.all (fun q => q.2.isConcrete) = true) p hp
  · exact ⟨rfl, rfl, rfl, rfl, rfl⟩
  · decide
  · decide
  · decide
  · exact ⟨by decide, by decide, by decide⟩

theorem registry_concreteness_witness :
    noOpClass.isConcrete = true
    ∧ (("noop", noOpClass) ∈ ([] : List (String × PyClass))
       ∨ (noOpClass = noOpClass ∧ noOpClass.isConcrete = true)) := by
  constructor
  · exact registry_concreteness.2.1 ("noop", noOpClass) (by decide)
  · exact registry_concreteness.1 [] noOpClass ("noop", noOpClass) (by decide)

end Countless
